import Mathlib

/- Shallow embedding of src/mcp/oc_agent_bridge.py: the agent trust and
discovery resolver (card signature verification, route indexing, endpoint
resolution, discovery aggregation).  External collaborators are modelled as
explicit oracle parameters: the cryptographic primitive, the rfc8785 (JCS)
library, the cluster CLI, the HTTP client and the clock.  Python dictionaries
whose shape is fixed by the code become structures with Option fields so that
absence is representable; Python exceptions become Except values. -/

/- Python truthiness for an optional string: None and "" are falsy. -/
def truthyStr : Option String → Option String
  | some s => if s = "" then none else some s
  | none => none

def exceptOk {ε α : Type} : Except ε α → Bool
  | .ok _ => true
  | .error _ => false

def exceptErr {ε α : Type} : Except ε α → Bool
  | .ok _ => false
  | .error _ => true

/- str.strip(), evaluated on the character list. -/
def pyStrip (s : String) : String :=
  String.mk (((s.data.dropWhile Char.isWhitespace).reverse.dropWhile Char.isWhitespace).reverse)

/- str.startswith, evaluated on the character lists. -/
def strStartsWith (s pre : String) : Bool :=
  pre.data.isPrefixOf s.data

/- UTF-8 bytes of one character. -/
def utf8Bytes (c : Char) : List Nat :=
  let n := c.toNat
  if n < 128 then [n]
  else if n < 2048 then [192 + n / 64, 128 + n % 64]
  else if n < 65536 then [224 + n / 4096, 128 + (n / 64) % 64, 128 + n % 64]
  else [240 + n / 262144, 128 + (n / 4096) % 64, 128 + (n / 64) % 64, 128 + n % 64]

def strBytes (s : String) : List Nat :=
  s.data.flatMap utf8Bytes

def b64UrlAlphabet : List Char :=
  "ABCDEFGHIJKLMNOPQRSTUVWXYZabcdefghijklmnopqrstuvwxyz0123456789-_".toList

def b64Char (n : Nat) : Char := b64UrlAlphabet.getD n 'A'

/- base64url without padding (base64.urlsafe_b64encode followed by rstrip of
the padding bytes, as in the source's _base64url_encode). -/
def base64urlChars : List Nat → List Char
  | [] => []
  | [a] => [b64Char (a / 4), b64Char ((a % 4) * 16)]
  | [a, b] => [b64Char (a / 4), b64Char ((a % 4) * 16 + b / 16), b64Char ((b % 16) * 4)]
  | a :: b :: c :: rest =>
      b64Char (a / 4) :: b64Char ((a % 4) * 16 + b / 16) ::
      b64Char ((b % 16) * 4 + c / 64) :: b64Char (c % 64) :: base64urlChars rest

def _base64url_encode (s : String) : String :=
  String.mk (base64urlChars (strBytes s))

/- JSON values, as far as the bridge manipulates them. -/
inductive Json where
  | null
  | bool (b : Bool)
  | num (n : Int)
  | str (s : String)
  | arr (elems : List Json)
  | obj (fields : List (String × Json))

/- json.dumps string escaping; only the quote and the backslash are escaped
in this model (ensure_ascii=False leaves other characters alone). -/
def escapeJsonChar (c : Char) : String :=
  if c = '"' ∨ c = '\\' then String.mk ['\\', c] else String.mk [c]

def quoteJsonString (s : String) : String :=
  "\"" ++ String.join (s.data.map escapeJsonChar) ++ "\""

/- Insertion sort of (key, rendered value) pairs by key: sort_keys=True. -/
def insertPair (p : String × String) : List (String × String) → List (String × String)
  | [] => [p]
  | q :: rest => if p.1 ≤ q.1 then p :: q :: rest else q :: insertPair p rest

def sortPairs : List (String × String) → List (String × String)
  | [] => []
  | p :: rest => insertPair p (sortPairs rest)

def joinComma (parts : List String) : String :=
  String.intercalate "," parts

/- json.dumps(card, sort_keys=True, separators=(",", ":"), ensure_ascii=False):
deterministic minified serialization with keys sorted at every object level.
Child values are rendered first, then the (key, rendered) pairs are sorted,
which matches sorting keys before rendering. -/
mutual

def serializeJson : Json → String
  | Json.null => "null"
  | Json.bool b => cond b "true" "false"
  | Json.num n => toString n
  | Json.str s => quoteJsonString s
  | Json.arr elems => "[" ++ joinComma (serializeArr elems) ++ "]"
  | Json.obj fields =>
      "\x7b" ++
        joinComma ((sortPairs (serializeObj fields)).map
          (fun p => quoteJsonString p.1 ++ ":" ++ p.2)) ++
      "\x7d"

def serializeArr : List Json → List String
  | [] => []
  | x :: xs => serializeJson x :: serializeArr xs

def serializeObj : List (String × Json) → List (String × String)
  | [] => []
  | (k, v) :: xs => (k, serializeJson v) :: serializeObj xs

end

/- A temporal claim value from the decoded protected header: a number, or a
value whose type check `isinstance(x, (int, float))` fails. -/
inductive JsonNum where
  | int (n : Int)
  | notNum
deriving DecidableEq

/- The decoded protected header of one signature envelope.  jku and jwk model
publisher-embedded key material: the verifier must never read them. -/
structure ProtectedHeader where
  alg : Option String := none
  kid : Option String := none
  crit : List String := []
  exp : Option JsonNum := none
  nbf : Option JsonNum := none
  iat : Option JsonNum := none
  jku : Option String := none
  jwk : Option String := none
deriving DecidableEq

/- The unprotected "header" member of one signature envelope (the fields the
bridge reads from it). -/
structure UnprotHeader where
  kid : Option String := none
  crit : List String := []
deriving DecidableEq

/- Outcome of sig.get("protected") followed by _base64url_decode_to_json:
the entry may be falsy, may fail to decode (raising), or decodes to a header. -/
inductive ProtField where
  | absent
  | malformed (msg : String)
  | decoded (h : ProtectedHeader)
deriving DecidableEq

/- One signature envelope of AgentCard.signatures. -/
structure SigEnvelope where
  prot : ProtField := ProtField.absent
  signature : Option String := none
  header : Option UnprotHeader := none
deriving DecidableEq

/- The agent card: its canonical (non-signature) content plus the value of
the "signatures" key, kept apart so that popping the key is representable. -/
structure Card where
  content : Json
  signatures : Option (List SigEnvelope) := none

/- One trusted public key of the JWKS (identifier, type, declared usage). -/
structure Jwk where
  kid : Option String := none
  kty : String := ""
  use : Option String := none
deriving DecidableEq

structure Jwks where
  keys : List Jwk
deriving DecidableEq

/- The per-signature detail dict assembled by SignatureVerifier.verify. -/
structure SigDetail where
  valid : Bool
  kid : Option String := none
  alg : Option String := none
  error : Option String := none
deriving DecidableEq

def DEFAULT_AGENT_ENDPOINT : String := "/.well-known/agent.json"

def AGENT_LABEL_KEYS : List String := ["a2a.agent.name", "ai.openshift.io/agent.name", "app"]

def ALLOWED_SIGNATURE_ALGORITHMS : List String := ["RS256", "ES256"]

/- The external cryptographic primitive inside authlib's deserialize_json:
given the payload encoding, the raw protected entry, the signature value and
the resolved key, does the raw signature check pass. -/
def CryptoOracle : Type :=
  String → ProtField → Option String → Jwk → Bool

/- _candidate_payload_b64s, lines 99-129.  The rfc8785/JCS attempt is the
external collaborator jcs; returning none models the library being absent or
its dump call raising (the except branch swallows either). -/
def buildCandidates (jcs : Json → Option String) (stripped : Json) : List String :=
  let uniques : List String :=
    match jcs stripped with
    | some jcsBytes => [_base64url_encode jcsBytes]
    | none => []
  let payload_str := serializeJson stripped
  let b64 := _base64url_encode payload_str
  if b64 ∈ uniques then uniques else uniques ++ [b64]

/- card_copy.pop("signatures", None) applied to a card value. -/
def popSignatures (card : Card) : Card :=
  { card with signatures := none }

def _candidate_payload_b64s (jcs : Json → Option String) (agent_card : Card) : List String :=
  buildCandidates jcs (popSignatures agent_card).content

/- The same function in a state monad over the caller's card object: the
source deep-copies the card and pops "signatures" on the copy only, so the
caller's object is read (get) but never written. -/
def _candidate_payload_b64sM (jcs : Json → Option String) : StateM Card (List String) := do
  let agent_card ← get
  let card_copy := popSignatures agent_card
  pure (buildCandidates jcs card_copy.content)

/- KeySet.find_by_kid: the first key whose kid matches, else a raised
ValueError. -/
def find_by_kid (keys : List Jwk) (kid : Option String) : Except String Jwk :=
  match keys.find? (fun k => k.kid == kid) with
  | some k => Except.ok k
  | none => Except.error "Invalid JSON Web Key Set"

/- key.use is truthy and different from "sig". -/
def keyUseBad (key : Jwk) : Bool :=
  match key.use with
  | some u => u != "" && u != "sig"
  | none => false

/- The key resolver created by _create_key_resolver, lines 188-209: look the
kid up in the caller-supplied trusted key set, reject a non-signing usage,
reject a key type incompatible with the algorithm family. -/
def key_resolver (keys : List Jwk) (kid : Option String) (alg : String) : Except String Jwk :=
  match find_by_kid keys kid with
  | Except.error e => Except.error e
  | Except.ok key =>
    if keyUseBad key then
      Except.error "Key has invalid use (expected sig)"
    else if (strStartsWith alg "RS" || strStartsWith alg "PS") && key.kty != "RSA" then
      Except.error ("Algorithm " ++ alg ++ " requires RSA key")
    else if strStartsWith alg "ES" && !(strStartsWith alg "RS" || strStartsWith alg "PS") && key.kty != "EC" then
      Except.error ("Algorithm " ++ alg ++ " requires EC key")
    else
      Except.ok key

/- The merged JWS header seen by the key resolver (protected entries shadow
unprotected ones), restricted to the kid it reads. -/
def mergedKid (h : ProtectedHeader) (unprot : Option UnprotHeader) : Option String :=
  match h.kid with
  | some k => some k
  | none => unprot.bind (fun u => u.kid)

/- The key resolved for one envelope: solely the trusted keys, the merged kid
and the declared algorithm take part. -/
def resolvedKey (keys : List Jwk) (h : ProtectedHeader) (unprot : Option UnprotHeader) : Except String Jwk :=
  key_resolver keys (mergedKid h unprot) (h.alg.getD "")

/- jws.deserialize_json on one flattened candidate: resolve the key through
the resolver above, then run the external cryptographic check. -/
def jws_deserialize_json (cryptoOk : CryptoOracle) (keys : List Jwk) (payload_b64 : String)
    (sig : SigEnvelope) (h : ProtectedHeader) : Except String Unit :=
  match resolvedKey keys h sig.header with
  | Except.error e => Except.error e
  | Except.ok key =>
      if cryptoOk payload_b64 sig.prot sig.signature key then Except.ok ()
      else Except.error "bad signature"

/- _validate_timestamps, lines 162-186.  now is int(time.time()).  A malformed
claim raises; exp strictly in the past and nbf strictly in the future raise;
an old iat only logs a warning and never fails. -/
def checkExp (now : Int) : Option JsonNum → Except String Unit
  | some (JsonNum.int e) => if e < now then Except.error "Signature has expired" else Except.ok ()
  | some JsonNum.notNum => Except.error "Signature has expired"
  | none => Except.ok ()

def checkNbf (now : Int) : Option JsonNum → Except String Unit
  | some (JsonNum.int n) => if n > now then Except.error "Signature not yet valid" else Except.ok ()
  | some JsonNum.notNum => Except.error "Signature not yet valid"
  | none => Except.ok ()

def checkIat : Option JsonNum → Except String Unit
  | some (JsonNum.int _) => Except.ok ()
  | some JsonNum.notNum => Except.error "Invalid iat timestamp"
  | none => Except.ok ()

def validate_timestamps (now : Int) (h : ProtectedHeader) : Except String Unit :=
  match checkExp now h.exp with
  | Except.error e => Except.error e
  | Except.ok _ =>
    match checkNbf now h.nbf with
    | Except.error e => Except.error e
    | Except.ok _ => checkIat h.iat

/- info["alg"] not in SecurityConfig.ALLOWED_ALGORITHMS (a None alg is never
in the allow-list). -/
def algAllowed : Option String → Bool
  | some a => ALLOWED_SIGNATURE_ALGORITHMS.contains a
  | none => false

/- crit = protected.get("crit") or unprotected.get("crit"); if crit: the
signature is rejected.  A missing or empty list is falsy. -/
def critTruthy (h : ProtectedHeader) (unprot : Option UnprotHeader) : Bool :=
  !h.crit.isEmpty || !((unprot.map (fun u => u.crit)).getD []).isEmpty

/- info["kid"] = protected_json.get("kid") or (unprotected or {}).get("kid"). -/
def infoKid (h : ProtectedHeader) (unprot : Option UnprotHeader) : Option String :=
  match truthyStr h.kid with
  | some k => some k
  | none => unprot.bind (fun u => u.kid)

/- The body of the per-signature loop of SignatureVerifier.verify, lines
234-286, once the protected entry decoded (a falsy entry decodes to {}).
Policy rejections raise inside the outer try and are recorded in
info["error"]; the candidate loop catches every deserialize_json failure
(including key resolution failures) and records nothing. -/
def verify_one_decoded (cryptoOk : CryptoOracle) (keys : List Jwk) (now : Int)
    (candidates : List String) (sig : SigEnvelope) (protected_json : ProtectedHeader) : SigDetail :=
  let base : SigDetail :=
    { valid := false, kid := infoKid protected_json sig.header, alg := protected_json.alg }
  if !(algAllowed protected_json.alg) then
    { base with error := some "Algorithm not in allowlist" }
  else if critTruthy protected_json sig.header then
    { base with error := some "Signature contains unsupported critical headers" }
  else
    match validate_timestamps now protected_json with
    | Except.error m => { base with error := some m }
    | Except.ok _ =>
      if candidates.any (fun p => exceptOk (jws_deserialize_json cryptoOk keys p sig protected_json)) then
        { base with valid := true }
      else
        base

def verify_one_signature (cryptoOk : CryptoOracle) (keys : List Jwk) (now : Int)
    (candidates : List String) (sig : SigEnvelope) : SigDetail :=
  match sig.prot with
  | ProtField.malformed msg => { valid := false, error := some msg }
  | ProtField.absent => verify_one_decoded cryptoOk keys now candidates sig {}
  | ProtField.decoded h => verify_one_decoded cryptoOk keys now candidates sig h

/- SignatureVerifier holds the trusted JWKS loaded at construction; None is
the representable configuration-absence state. -/
structure SignatureVerifier where
  jwks : Option Jwks
deriving DecidableEq

/- SignatureVerifier.verify, lines 211-288, after the empty-signatures early
return: the missing-JWKS report, then the all-must-pass fold over envelopes. -/
def verifyWithCandidates (v : SignatureVerifier) (cryptoOk : CryptoOracle) (now : Int)
    (agent_card : Card) (payload_b64_candidates : List String) : Bool × List SigDetail :=
  match v.jwks with
  | none => (false, [{ valid := false, error := some "No trusted JWKS available" }])
  | some jwks =>
      (agent_card.signatures.getD []).foldl
        (fun acc sig =>
          let info := verify_one_signature cryptoOk jwks.keys now payload_b64_candidates sig
          (acc.1 && info.valid, acc.2 ++ [info]))
        (true, [])

def SignatureVerifier.verify (v : SignatureVerifier) (cryptoOk : CryptoOracle)
    (jcs : Json → Option String) (now : Int) (agent_card : Card) : Bool × List SigDetail :=
  match agent_card.signatures.getD [] with
  | [] => (false, [])
  | _ :: _ => verifyWithCandidates v cryptoOk now agent_card (_candidate_payload_b64s jcs agent_card)

/- verify in a state monad over the caller's card object: the card is only
ever read; the signature stripping happens inside _candidate_payload_b64sM on
a deep copy. -/
def SignatureVerifier.verifyM (v : SignatureVerifier) (cryptoOk : CryptoOracle)
    (jcs : Json → Option String) (now : Int) : StateM Card (Bool × List SigDetail) := do
  let agent_card ← get
  match agent_card.signatures.getD [] with
  | [] => pure (false, [])
  | _ :: _ => do
      let payload_b64_candidates ← _candidate_payload_b64sM jcs
      pure (verifyWithCandidates v cryptoOk now agent_card payload_b64_candidates)

/- A route resource, restricted to the fields the bridge reads. -/
structure RouteSpec where
  host : Option String := none
  tls : Bool := false
  to_name : Option String := none
deriving DecidableEq

structure RouteResource where
  metadata_name : Option String := none
  metadata_namespace : Option String := none
  labels : List (String × String) := []
  spec : RouteSpec := {}
deriving DecidableEq

/- spec.sourceRef of an agent resource. -/
structure SourceRef where
  kind : Option String := none
  name : Option String := none
deriving DecidableEq

/- An Agent custom resource, restricted to the fields the discovery loop
reads (metadata, spec, status). -/
structure AgentCR where
  metadata_name : Option String := none
  metadata_namespace : Option String := none
  spec_name : Option String := none
  spec_class : Option String := none
  spec_endpoint : Option String := none
  spec_sourceRef : Option SourceRef := none
  status_url : Option String := none
  status_phase : Option String := none
  status_agentCard_description : Option String := none
  status_agentCard_version : Option String := none
deriving DecidableEq

/- The cluster CLI collaborator: oc get route <name> -n <ns> (its wrapper
swallows every failure into None) and oc get routes <scope> -l <selector>
(its wrapper raises on failure). -/
structure ClusterOracle where
  get_route : String → String → Option RouteResource
  get_routes : String → String → Except String (List RouteResource)

/- _build_url_from_route, lines 393-399: scheme from the TLS stanza. -/
def _build_url_from_route (route_spec : RouteSpec) : Option String :=
  match truthyStr route_spec.host with
  | none => none
  | some host => some ((if route_spec.tls then "https" else "http") ++ "://" ++ host)

/- The Service branch scan: first route whose spec.to.name equals the target,
returning its built URL even when that is None. -/
def firstServiceRouteUrl (name : String) : List RouteResource → Option String
  | [] => none
  | r :: rest =>
      if r.spec.to_name == some name then _build_url_from_route r.spec
      else firstServiceRouteUrl name rest

/- resolve_url_from_source_ref, lines 401-423.  The try block swallows any
raised lookup failure into None. -/
def resolve_url_from_source_ref (oracle : ClusterOracle) (ns : String) (source_ref : SourceRef) : Option String :=
  let kind := pyStrip (source_ref.kind.getD "")
  let name := pyStrip (source_ref.name.getD "")
  if kind = "" ∨ name = "" then none
  else if kind = "Route" then
    match oracle.get_route name ns with
    | some route => _build_url_from_route route.spec
    | none => none
  else if kind = "Service" then
    match oracle.get_routes ("-n " ++ ns) "" with
    | Except.error _ => none
    | Except.ok routes => firstServiceRouteUrl name routes
  else none

/- The route index dict: association list with Python-dict update semantics. -/
abbrev RouteIndex : Type := List ((String × String) × String)

def dictGet (idx : RouteIndex) (k : String × String) : Option String :=
  match idx with
  | [] => none
  | e :: rest => if e.1 == k then some e.2 else dictGet rest k

/- index[k] = v: replace the binding in place when the key is present
(Python dicts keep the original insertion position), else append. -/
def dictSet (idx : RouteIndex) (k : String × String) (v : String) : RouteIndex :=
  match idx with
  | [] => [(k, v)]
  | e :: rest => if e.1 == k then (e.1, v) :: rest else e :: dictSet rest k v

/- index.setdefault(k, v): insert only when the key is absent. -/
def dictSetdefault (idx : RouteIndex) (k : String × String) (v : String) : RouteIndex :=
  match idx with
  | [] => [(k, v)]
  | e :: rest => if e.1 == k then e :: rest else e :: dictSetdefault rest k v

/- labels.get(key). -/
def labelGet (labels : List (String × String)) (key : String) : Option String :=
  match labels.find? (fun p => p.1 == key) with
  | some p => some p.2
  | none => none

/- The alias tier of build_route_index: for each identity label key in order,
a truthy label value overwrites the entry outright. -/
def indexLabelsAux (ns url : String) (labels : List (String × String))
    (keys : List String) (idx : RouteIndex) : RouteIndex :=
  keys.foldl
    (fun idx key =>
      match truthyStr (labelGet labels key) with
      | some name => dictSet idx (ns, name) url
      | none => idx)
    idx

def indexLabels (ns url : String) (labels : List (String × String)) (idx : RouteIndex) : RouteIndex :=
  indexLabelsAux ns url labels AGENT_LABEL_KEYS idx

/- RouteIndexBuilder.build_route_index, lines 429-455.  Note the URL is
unconditionally https here. -/
def build_route_index_step (idx : RouteIndex) (route : RouteResource) : RouteIndex :=
  let ns := route.metadata_namespace.getD ""
  let host := route.spec.host.getD ""
  if ns = "" ∨ host = "" then idx
  else
    let url := "https://" ++ host
    let idx := indexLabels ns url route.labels idx
    match truthyStr route.metadata_name with
    | some route_name => dictSetdefault idx (ns, route_name) url
    | none => idx

def build_route_index (routes : List RouteResource) : RouteIndex :=
  routes.foldl build_route_index_step []

/- The URL fallback chain of the discovery loop, lines 581-594: direct status
URL, then sourceRef lookup, then the route index by agent name and by the
resource's own name, else no URL. -/
def resolveAgentUrl (oracle : ClusterOracle) (route_index : RouteIndex) (cr : AgentCR) : String :=
  let ns := cr.metadata_namespace.getD ""
  let agent_name := cr.spec_name.getD "unknown"
  let url := cr.status_url.getD ""
  if url ≠ "" then url
  else
    let source_ref := cr.spec_sourceRef.getD {}
    let inferred := resolve_url_from_source_ref oracle ns source_ref
    let inferred :=
      match truthyStr inferred with
      | some u => some u
      | none =>
        let cr_name := cr.metadata_name.getD ""
        match truthyStr (dictGet route_index (ns, agent_name)) with
        | some u => some u
        | none => truthyStr (dictGet route_index (ns, cr_name))
    match inferred with
    | some u => u
    | none => ""

/- The signature_verification dict attached to an AgentInfo. -/
inductive VerificationField where
  | skipped (reason : String)
  | details (ds : List SigDetail)
  | errorInfo (msg : String)
deriving DecidableEq

/- The AgentInfo dataclass, lines 65-82 (ns stands for the namespace field,
a Lean keyword). -/
structure AgentInfo where
  agent_name : String
  ns : String
  agent_class : String
  version : String
  phase : String
  url : String
  agent_card_url : String
  description : String
  endpoint_accessible : Option Bool := none
  signature_verified : Option Bool := none
  signature_verification : Option VerificationField := none
deriving DecidableEq

/- The HTTP client collaborator for the card fetch: the request may raise, or
return a status code and a body whose .json() parse may itself raise. -/
inductive HttpResult where
  | failure (msg : String)
  | response (status : Nat) (body : Except String Card)

/- The except branch of _verify_endpoint_and_signature, lines 529-535: record
the failure on the agent record, and re-raise only under the strict flag. -/
def handleVerifyExc (info : AgentInfo) (verify_signatures strict : Bool) (msg : String) : Except String AgentInfo :=
  let info :=
    if verify_signatures then
      { info with signature_verified := some false,
                  signature_verification := some (VerificationField.errorInfo msg) }
    else info
  let info := { info with endpoint_accessible := some false }
  if strict then Except.error ("Failed to verify agent " ++ info.agent_name ++ ": " ++ msg)
  else Except.ok info

/- _verify_endpoint_and_signature, lines 494-535.  strict models
SecurityConfig.require_verified_card(); the Error result models the raised
exception that aborts the caller. -/
def _verify_endpoint_and_signature (net : String → HttpResult) (strict : Bool)
    (cryptoOk : CryptoOracle) (jcs : Json → Option String) (now : Int)
    (verify_endpoints verify_signatures : Bool) (verifier : Option SignatureVerifier)
    (info : AgentInfo) (agent_card_url : String) : Except String AgentInfo :=
  if (!(verify_endpoints || verify_signatures)) || agent_card_url = "" then
    if verify_endpoints then Except.ok { info with endpoint_accessible := some false }
    else Except.ok info
  else
    match net agent_card_url with
    | HttpResult.failure msg => handleVerifyExc info verify_signatures strict msg
    | HttpResult.response status body =>
      let info := { info with endpoint_accessible := some (status == 200) }
      if !(verify_signatures && status == 200 && verifier.isSome) then Except.ok info
      else
        match body with
        | Except.error msg => handleVerifyExc info verify_signatures strict msg
        | Except.ok card_json =>
          match verifier with
          | none => Except.ok info
          | some verifier =>
            match verifier.jwks with
            | none =>
              let info := { info with
                signature_verified := none,
                signature_verification := some (VerificationField.skipped "No trusted JWKS configured") }
              if strict then
                handleVerifyExc info verify_signatures strict
                  "A2A_REQUIRE_VERIFIED_CARD is true but no JWKS configured"
              else Except.ok info
            | some _ =>
              let res := verifier.verify cryptoOk jcs now card_json
              let info := { info with
                signature_verified := some res.1,
                signature_verification := some (VerificationField.details res.2) }
              if !res.1 && strict then
                handleVerifyExc info verify_signatures strict "AgentCard signatures did not verify"
              else Except.ok info

/- The per-record assembly of the discovery loop, lines 572-611, up to the
AgentInfo construction (endpoint verification applied separately). -/
def processAgentCR (oracle : ClusterOracle) (route_index : RouteIndex) (cr : AgentCR) : AgentInfo :=
  let agent_name := cr.spec_name.getD "unknown"
  let ns := cr.metadata_namespace.getD ""
  let agent_class := cr.spec_class.getD "unknown"
  let endpoint := cr.spec_endpoint.getD DEFAULT_AGENT_ENDPOINT
  let url := resolveAgentUrl oracle route_index cr
  let phase := cr.status_phase.getD "Unknown"
  let description := cr.status_agentCard_description.getD ""
  let version := cr.status_agentCard_version.getD ""
  let agent_card_url := if url ≠ "" then url ++ endpoint else ""
  { agent_name := agent_name, ns := ns, agent_class := agent_class, version := version,
    phase := phase, url := url, agent_card_url := agent_card_url, description := description }

/- The for loop of _discover_agents_impl: a raised verification failure (only
possible under strict) aborts the remaining records. -/
def discoverLoop (net : String → HttpResult) (strict : Bool) (cryptoOk : CryptoOracle)
    (jcs : Json → Option String) (now : Int) (verify_endpoints verify_signatures : Bool)
    (verifier : Option SignatureVerifier) (oracle : ClusterOracle) (route_index : RouteIndex) :
    List AgentCR → Except String (List AgentInfo)
  | [] => Except.ok []
  | cr :: rest =>
    let info := processAgentCR oracle route_index cr
    match _verify_endpoint_and_signature net strict cryptoOk jcs now verify_endpoints
        verify_signatures verifier info info.agent_card_url with
    | Except.error e => Except.error e
    | Except.ok info2 =>
      match discoverLoop net strict cryptoOk jcs now verify_endpoints verify_signatures
          verifier oracle route_index rest with
      | Except.error e => Except.error e
      | Except.ok others => Except.ok (info2 :: others)

/- _discover_agents_impl, lines 538-616, from the fetched agent list onward:
the fallback route index is built once (a route discovery failure is
swallowed into an empty index), the verifier is created only when signature
verification was requested (loading jwks from the environment), and the
records are processed in order. -/
def _discover_agents_impl (oracle : ClusterOracle) (net : String → HttpResult) (strict : Bool)
    (cryptoOk : CryptoOracle) (jcs : Json → Option String) (now : Int) (namespace_flag : String)
    (verify_endpoints verify_signatures : Bool) (env_jwks : Option Jwks)
    (agent_crs : List AgentCR) : Except String (List AgentInfo) :=
  match agent_crs with
  | [] => Except.ok []
  | _ :: _ =>
    let route_index :=
      match oracle.get_routes namespace_flag "a2a.agent=true" with
      | Except.ok fallback_routes => build_route_index fallback_routes
      | Except.error _ => []
    let verifier : Option SignatureVerifier :=
      if verify_signatures then some { jwks := env_jwks } else none
    discoverLoop net strict cryptoOk jcs now verify_endpoints verify_signatures
      verifier oracle route_index agent_crs

/- Concrete fixtures used by witnesses and counterexamples. -/

def rsaSigKey : Jwk := { kid := some "k1", kty := "RSA", use := some "sig" }

def encUseKey : Jwk := { kid := some "k1", kty := "RSA", use := some "enc" }

def testKeySet : Jwks := { keys := [rsaSigKey] }

def alwaysOkCrypto : CryptoOracle := fun _ _ _ _ => true

def noJcs : Json → Option String := fun _ => none

def emptyContent : Json := Json.obj []

def goodHeader : ProtectedHeader := { alg := some "RS256", kid := some "k1" }

def goodSig : SigEnvelope := { prot := ProtField.decoded goodHeader, signature := some "sig-one" }

def unknownKidSig : SigEnvelope :=
  { prot := ProtField.decoded { alg := some "RS256", kid := some "kX" }, signature := some "sig-two" }

def mixedCard : Card := { content := emptyContent, signatures := some [goodSig, unknownKidSig] }

def zeroSigCard : Card := { content := emptyContent, signatures := none }

def testVerifier : SignatureVerifier := { jwks := some testKeySet }

/- More fixtures for the route index, endpoint resolution and discovery
claims. -/

def labeledRoute : RouteResource :=
  { metadata_name := some "r1", metadata_namespace := some "ns",
    labels := [("a2a.agent.name", "alpha")],
    spec := { host := some "a.example.com", tls := true } }

def unlabeledRoute : RouteResource :=
  { metadata_name := some "alpha", metadata_namespace := some "ns",
    labels := [], spec := { host := some "b.example.com", tls := true } }

def noTlsRoute : RouteResource :=
  { metadata_name := some "r", metadata_namespace := some "ns",
    labels := [], spec := { host := some "h.example.com", tls := false } }

def emptyOracle : ClusterOracle :=
  { get_route := fun _ _ => none, get_routes := fun _ _ => Except.ok [] }

def failNet : String → HttpResult := fun _ => HttpResult.failure "boom"

def okNet (card : Card) : String → HttpResult := fun _ => HttpResult.response 200 (Except.ok card)

def directUrlCR : AgentCR :=
  { spec_name := some "a1", metadata_namespace := some "ns",
    status_url := some "http://a1.example.com" }

def directUrlCR2 : AgentCR :=
  { spec_name := some "a2", metadata_namespace := some "ns",
    status_url := some "http://a2.example.com" }

def baseInfo : AgentInfo :=
  { agent_name := "a1", ns := "ns", agent_class := "a2a", version := "", phase := "Ready",
    url := "http://a1.example.com",
    agent_card_url := "http://a1.example.com/.well-known/agent.json",
    description := "" }

def singleGoodCard : Card := { content := emptyContent, signatures := some [goodSig] }

instance {ε α : Type} [DecidableEq ε] [DecidableEq α] : DecidableEq (Except ε α) := fun x y =>
  match x, y with
  | Except.ok a, Except.ok b =>
      if h : a = b then Decidable.isTrue (by rw [h]) else Decidable.isFalse (by simp [h])
  | Except.error a, Except.error b =>
      if h : a = b then Decidable.isTrue (by rw [h]) else Decidable.isFalse (by simp [h])
  | Except.ok _, Except.error _ => Decidable.isFalse (by simp)
  | Except.error _, Except.ok _ => Decidable.isFalse (by simp)

/- Helper lemmas.  verifyFoldSpec: the all-must-pass fold of verify is the
conjunction of the per-envelope validity bits alongside the list of per
envelope details. -/

theorem verifyFoldSpec (g : SigEnvelope → SigDetail) :
    ∀ (sigs : List SigEnvelope) (b : Bool) (ds : List SigDetail),
      sigs.foldl (fun acc sig =>
        let info := g sig
        (acc.1 && info.valid, acc.2 ++ [info])) (b, ds)
      = (b && sigs.all (fun s => (g s).valid), ds ++ sigs.map g) := by
  intro sigs
  induction sigs with
  | nil => intro b ds; simp
  | cons s rest ih =>
    intro b ds
    simp only [List.foldl_cons, List.all_cons, List.map_cons]
    rw [ih]
    simp [Bool.and_assoc]

theorem dictGet_dictSet_self (k : String × String) (v : String) :
    ∀ (idx : RouteIndex), dictGet (dictSet idx k v) k = some v := by
  intro idx
  induction idx with
  | nil => simp [dictSet, dictGet]
  | cons e rest ih =>
    by_cases h : e.1 = k
    · simp [dictSet, dictGet, h]
    · simp only [dictSet, dictGet, beq_iff_eq, h, if_false]
      simpa [dictGet, h] using ih

theorem dictGet_dictSet_other (k w : String × String) (v : String) (hne : w ≠ k) :
    ∀ (idx : RouteIndex), dictGet (dictSet idx w v) k = dictGet idx k := by
  intro idx
  induction idx with
  | nil => simp [dictSet, dictGet, hne]
  | cons e rest ih =>
    by_cases h : e.1 = w
    · simp [dictSet, dictGet, h, hne]
    · simp only [dictSet, dictGet, beq_iff_eq, h, if_false]
      by_cases h2 : e.1 = k
      · simp [dictGet, h2]
      · simp [dictGet, h2, ih]

theorem dictGet_dictSetdefault_some (k w : String × String) (v u : String) :
    ∀ (idx : RouteIndex), dictGet idx k = some u →
      dictGet (dictSetdefault idx w v) k = some u := by
  intro idx
  induction idx with
  | nil => intro h; simp [dictGet] at h
  | cons e rest ih =>
    intro h
    by_cases hw : e.1 = w
    · simpa [dictSetdefault, hw] using h
    · simp only [dictSetdefault, beq_iff_eq, hw, if_false]
      by_cases hk : e.1 = k
      · simpa [dictGet, hk] using h
      · simp only [dictGet, beq_iff_eq, hk, if_false] at h ⊢
        exact ih h

/- labelHits: route labels under this identity key write the index entry k
(namespace matches and the label value is truthy and equals the logical
name). -/
def labelHits (ns : String) (labels : List (String × String)) (k : String × String) (key : String) : Bool :=
  ns == k.1 && truthyStr (labelGet labels key) == some k.2

theorem indexLabelsAux_get (ns url : String) (labels : List (String × String)) (k : String × String) :
    ∀ (keys : List String) (idx : RouteIndex),
      dictGet (indexLabelsAux ns url labels keys idx) k
        = if keys.any (labelHits ns labels k) then some url else dictGet idx k := by
  intro keys
  induction keys with
  | nil => intro idx; simp [indexLabelsAux]
  | cons key keys ih =>
    intro idx
    simp only [indexLabelsAux, List.foldl_cons, List.any_cons]
    rw [show (List.foldl _ _ keys : RouteIndex) = indexLabelsAux ns url labels keys
          (match truthyStr (labelGet labels key) with
           | some name => dictSet idx (ns, name) url
           | none => idx) from rfl]
    rw [ih]
    by_cases hany : keys.any (labelHits ns labels k) = true
    · simp [hany]
    · simp only [Bool.not_eq_true] at hany
      simp only [hany, Bool.or_false, if_false]
      cases hname : truthyStr (labelGet labels key) with
      | none =>
        have : labelHits ns labels k key = false := by
          simp [labelHits, hname]
        simp [this]
      | some name =>
        by_cases hk : (ns, name) = k
        · subst hk
          have hhit : labelHits ns labels (ns, name) key = true := by
            simp [labelHits, hname]
          simp [hhit, dictGet_dictSet_self]
        · have : labelHits ns labels k key = false := by
            simp only [labelHits, hname, Bool.and_eq_false_iff]
            by_cases h1 : ns = k.1
            · right
              simp only [beq_eq_false_iff_ne, ne_eq, Option.some.injEq]
              intro h2
              exact hk (by cases k with | mk a b => simp_all)
            · left; simp [h1]
          simp [this, dictGet_dictSet_other k (ns, name) url (by simpa [eq_comm] using hk)]

/- The value the alias (label) tier of one route leaves at index key k, if
that route writes k at all. -/
def routeLabelWrite (k : String × String) (route : RouteResource) : Option String :=
  let ns := route.metadata_namespace.getD ""
  let host := route.spec.host.getD ""
  if ns = "" ∨ host = "" then none
  else if AGENT_LABEL_KEYS.any (labelHits ns route.labels k) then some ("https://" ++ host)
  else none

/- The value of the latest alias-tier write at k over a route list (later
routes win). -/
def lastLabelWrite (k : String × String) : List RouteResource → Option String
  | [] => none
  | r :: rest =>
    match lastLabelWrite k rest with
    | some u => some u
    | none => routeLabelWrite k r

theorem routeStep_label_write (k : String × String) (u : String) (r : RouteResource)
    (idx : RouteIndex) (hw : routeLabelWrite k r = some u) :
    dictGet (build_route_index_step idx r) k = some u := by
  unfold routeLabelWrite at hw
  unfold build_route_index_step
  by_cases hg : r.metadata_namespace.getD "" = "" ∨ r.spec.host.getD "" = ""
  · simp [hg] at hw
  · simp only [hg, if_false] at hw ⊢
    by_cases hany : AGENT_LABEL_KEYS.any
        (labelHits (r.metadata_namespace.getD "") r.labels k) = true
    · simp only [hany, if_true, Option.some.injEq] at hw
      have hlab : dictGet (indexLabels (r.metadata_namespace.getD "")
          ("https://" ++ r.spec.host.getD "") r.labels idx) k
          = some ("https://" ++ r.spec.host.getD "") := by
        rw [indexLabels, indexLabelsAux_get]
        simp [hany]
      cases ht : truthyStr r.metadata_name with
      | none => simp only [ht]; rw [hlab, hw]
      | some rn =>
        simp only [ht]
        rw [dictGet_dictSetdefault_some _ _ _ _ _ hlab, hw]
    · simp [hany] at hw

theorem routeStep_preserves (k : String × String) (u : String) (r : RouteResource)
    (idx : RouteIndex) (hw : routeLabelWrite k r = none) (hu : dictGet idx k = some u) :
    dictGet (build_route_index_step idx r) k = some u := by
  unfold routeLabelWrite at hw
  unfold build_route_index_step
  by_cases hg : r.metadata_namespace.getD "" = "" ∨ r.spec.host.getD "" = ""
  · simpa [hg] using hu
  · simp only [hg, if_false] at hw ⊢
    by_cases hany : AGENT_LABEL_KEYS.any
        (labelHits (r.metadata_namespace.getD "") r.labels k) = true
    · simp [hany] at hw
    · have hlab : dictGet (indexLabels (r.metadata_namespace.getD "")
          ("https://" ++ r.spec.host.getD "") r.labels idx) k = some u := by
        rw [indexLabels, indexLabelsAux_get]
        simp only [Bool.not_eq_true] at hany
        simp [hany, hu]
      cases ht : truthyStr r.metadata_name with
      | none => simpa [ht] using hlab
      | some rn =>
        simp only [ht]
        exact dictGet_dictSetdefault_some _ _ _ _ _ hlab

theorem lastLabelWrite_none (k : String × String) :
    ∀ (routes : List RouteResource), lastLabelWrite k routes = none →
      ∀ r ∈ routes, routeLabelWrite k r = none := by
  intro routes
  induction routes with
  | nil => intro _ r hr; cases hr
  | cons a rest ih =>
    intro h r hr
    unfold lastLabelWrite at h
    cases hrest : lastLabelWrite k rest with
    | some u => rw [hrest] at h; cases h
    | none =>
      rw [hrest] at h
      rcases List.mem_cons.mp hr with h1 | h2
      · rw [h1]; exact h
      · exact ih hrest r h2

theorem foldSteps_preserve (k : String × String) (u : String) :
    ∀ (routes : List RouteResource) (idx : RouteIndex),
      (∀ r ∈ routes, routeLabelWrite k r = none) → dictGet idx k = some u →
      dictGet (routes.foldl build_route_index_step idx) k = some u := by
  intro routes
  induction routes with
  | nil => intro idx _ hu; simpa using hu
  | cons a rest ih =>
    intro idx hall hu
    simp only [List.foldl_cons]
    exact ih _ (fun r hr => hall r (List.mem_cons_of_mem a hr))
      (routeStep_preserves k u a idx (hall a (List.mem_cons_self a rest)) hu)

theorem lastLabelWrite_foldl (k : String × String) (u : String) :
    ∀ (routes : List RouteResource) (idx : RouteIndex),
      lastLabelWrite k routes = some u →
      dictGet (routes.foldl build_route_index_step idx) k = some u := by
  intro routes
  induction routes with
  | nil => intro idx h; cases h
  | cons a rest ih =>
    intro idx h
    unfold lastLabelWrite at h
    simp only [List.foldl_cons]
    cases hrest : lastLabelWrite k rest with
    | some w =>
      rw [hrest] at h
      cases h
      exact ih _ hrest
    | none =>
      rw [hrest] at h
      exact foldSteps_preserve k u rest _ (lastLabelWrite_none k rest hrest)
        (routeStep_label_write k u a idx h)

/- Every value held by the built route index carries the https scheme. -/
def httpsValued (idx : RouteIndex) : Prop :=
  ∀ e ∈ idx, ∃ host, e.2 = "https://" ++ host

theorem dictSet_https (k : String × String) (v : String) (hv : ∃ host, v = "https://" ++ host) :
    ∀ (idx : RouteIndex), httpsValued idx → httpsValued (dictSet idx k v) := by
  intro idx
  induction idx with
  | nil =>
    intro _ e he
    simp only [dictSet, List.mem_singleton] at he
    rw [he]; exact hv
  | cons a rest ih =>
    intro hidx e he
    by_cases h : a.1 = k
    · simp only [dictSet, beq_iff_eq, h, if_true, List.mem_cons] at he
      rcases he with h1 | h2
      · rw [h1]; exact hv
      · exact hidx e (List.mem_cons_of_mem a h2)
    · simp only [dictSet, beq_iff_eq, h, if_false, List.mem_cons] at he
      rcases he with h1 | h2
      · rw [h1]; exact hidx a (List.mem_cons_self a rest)
      · exact ih (fun x hx => hidx x (List.mem_cons_of_mem a hx)) e h2

theorem dictSetdefault_https (k : String × String) (v : String) (hv : ∃ host, v = "https://" ++ host) :
    ∀ (idx : RouteIndex), httpsValued idx → httpsValued (dictSetdefault idx k v) := by
  intro idx
  induction idx with
  | nil =>
    intro _ e he
    simp only [dictSetdefault, List.mem_singleton] at he
    rw [he]; exact hv
  | cons a rest ih =>
    intro hidx e he
    by_cases h : a.1 = k
    · simp only [dictSetdefault, beq_iff_eq, h, if_true] at he
      exact hidx e he
    · simp only [dictSetdefault, beq_iff_eq, h, if_false, List.mem_cons] at he
      rcases he with h1 | h2
      · rw [h1]; exact hidx a (List.mem_cons_self a rest)
      · exact ih (fun x hx => hidx x (List.mem_cons_of_mem a hx)) e h2

theorem indexLabelsAux_https (ns url : String) (labels : List (String × String))
    (hurl : ∃ host, url = "https://" ++ host) :
    ∀ (keys : List String) (idx : RouteIndex), httpsValued idx →
      httpsValued (indexLabelsAux ns url labels keys idx) := by
  intro keys
  induction keys with
  | nil => intro idx h; exact h
  | cons key keys ih =>
    intro idx hidx
    simp only [indexLabelsAux, List.foldl_cons]
    cases hname : truthyStr (labelGet labels key) with
    | none =>
      simpa only [indexLabelsAux, hname] using ih idx hidx
    | some name =>
      simpa only [indexLabelsAux, hname] using
        ih (dictSet idx (ns, name) url) (dictSet_https (ns, name) url hurl idx hidx)

theorem buildStep_https (r : RouteResource) :
    ∀ (idx : RouteIndex), httpsValued idx → httpsValued (build_route_index_step idx r) := by
  intro idx hidx
  unfold build_route_index_step
  by_cases hg : r.metadata_namespace.getD "" = "" ∨ r.spec.host.getD "" = ""
  · simpa [hg] using hidx
  · simp only [hg, if_false]
    have hurl : ∃ host, "https://" ++ r.spec.host.getD "" = "https://" ++ host :=
      ⟨r.spec.host.getD "", rfl⟩
    have hlab := indexLabelsAux_https (r.metadata_namespace.getD "")
      ("https://" ++ r.spec.host.getD "") r.labels hurl AGENT_LABEL_KEYS idx hidx
    cases ht : truthyStr r.metadata_name with
    | none => simpa only [ht, indexLabels] using hlab
    | some rn =>
      simp only [ht, indexLabels]
      exact dictSetdefault_https _ _ hurl _ hlab

theorem build_route_index_https :
    ∀ (routes : List RouteResource) (idx : RouteIndex), httpsValued idx →
      httpsValued (routes.foldl build_route_index_step idx) := by
  intro routes
  induction routes with
  | nil => intro idx h; exact h
  | cons a rest ih =>
    intro idx hidx
    simp only [List.foldl_cons]
    exact ih _ (buildStep_https a idx hidx)

theorem dictGet_https (k : String × String) (u : String) :
    ∀ (idx : RouteIndex), httpsValued idx → dictGet idx k = some u →
      ∃ host, u = "https://" ++ host := by
  intro idx
  induction idx with
  | nil => intro _ h; cases h
  | cons a rest ih =>
    intro hidx h
    by_cases he : a.1 = k
    · simp only [dictGet, beq_iff_eq, he, if_true, Option.some.injEq] at h
      rw [← h]
      exact hidx a (List.mem_cons_self a rest)
    · simp only [dictGet, beq_iff_eq, he, if_false] at h
      exact ih (fun x hx => hidx x (List.mem_cons_of_mem a hx)) h

/- The per-agent outcome of endpoint/signature verification in non-strict
mode (total: the except branch never re-raises there). -/
def verifyNonStrictResult (net : String → HttpResult) (cryptoOk : CryptoOracle)
    (jcs : Json → Option String) (now : Int) (ve vs : Bool)
    (verifier : Option SignatureVerifier) (info : AgentInfo) (url : String) : AgentInfo :=
  match _verify_endpoint_and_signature net false cryptoOk jcs now ve vs verifier info url with
  | Except.ok i => i
  | Except.error _ => info

theorem verify_nonstrict_ex (net : String → HttpResult) (cryptoOk : CryptoOracle)
    (jcs : Json → Option String) (now : Int) (ve vs : Bool)
    (verifier : Option SignatureVerifier) (info : AgentInfo) (url : String) :
    ∃ i, _verify_endpoint_and_signature net false cryptoOk jcs now ve vs verifier info url
      = Except.ok i := by
  unfold _verify_endpoint_and_signature handleVerifyExc
  repeat' split
  all_goals first
    | exact ⟨_, rfl⟩
    | simp_all

theorem verify_nonstrict_eq (net : String → HttpResult) (cryptoOk : CryptoOracle)
    (jcs : Json → Option String) (now : Int) (ve vs : Bool)
    (verifier : Option SignatureVerifier) (info : AgentInfo) (url : String) :
    _verify_endpoint_and_signature net false cryptoOk jcs now ve vs verifier info url
      = Except.ok (verifyNonStrictResult net cryptoOk jcs now ve vs verifier info url) := by
  obtain ⟨i, hi⟩ := verify_nonstrict_ex net cryptoOk jcs now ve vs verifier info url
  unfold verifyNonStrictResult
  rw [hi]

theorem discoverLoop_nonstrict (net : String → HttpResult) (cryptoOk : CryptoOracle)
    (jcs : Json → Option String) (now : Int) (ve vs : Bool)
    (verifier : Option SignatureVerifier) (oracle : ClusterOracle) (idx : RouteIndex) :
    ∀ (crs : List AgentCR),
      discoverLoop net false cryptoOk jcs now ve vs verifier oracle idx crs
      = Except.ok (crs.map (fun cr =>
          verifyNonStrictResult net cryptoOk jcs now ve vs verifier
            (processAgentCR oracle idx cr) (processAgentCR oracle idx cr).agent_card_url)) := by
  intro crs
  induction crs with
  | nil => rfl
  | cons cr rest ih =>
    simp only [discoverLoop, List.map_cons]
    rw [verify_nonstrict_eq net cryptoOk jcs now ve vs verifier
      (processAgentCR oracle idx cr) (processAgentCR oracle idx cr).agent_card_url]
    rw [ih]

/- The fallback route index built at the top of a discovery pass. -/
def routeIndexOf (oracle : ClusterOracle) (namespace_flag : String) : RouteIndex :=
  match oracle.get_routes namespace_flag "a2a.agent=true" with
  | Except.ok fallback_routes => build_route_index fallback_routes
  | Except.error _ => []

/-- C1: for every card and every trusted key set, verify returns allValid =
true exactly when the signature list is non-empty and every envelope's
per-signature check is valid; a card with zero signatures yields (false, []);
and the concrete card with one valid RS256 signature plus one signature
referencing a kid absent from the trusted set yields overall not-valid with
one valid and one failed detail entry. -/
theorem verify_all_must_pass :
    (∀ (cryptoOk : CryptoOracle) (jcs : Json → Option String) (ks : Jwks) (now : Int) (card : Card),
      (SignatureVerifier.verify { jwks := some ks } cryptoOk jcs now card).1 = true ↔
        (card.signatures.getD [] ≠ [] ∧
          ∀ sig ∈ card.signatures.getD [],
            (verify_one_signature cryptoOk ks.keys now (_candidate_payload_b64s jcs card) sig).valid = true))
    ∧ (∀ (cryptoOk : CryptoOracle) (jcs : Json → Option String) (v : SignatureVerifier) (now : Int) (card : Card),
        card.signatures.getD [] = [] →
        SignatureVerifier.verify v cryptoOk jcs now card = (false, []))
    ∧ SignatureVerifier.verify testVerifier alwaysOkCrypto noJcs 0 mixedCard =
        (false, [{ valid := true, kid := some "k1", alg := some "RS256" },
                 { valid := false, kid := some "kX", alg := some "RS256" }]) := by
  refine ⟨?_, ?_, by decide⟩
  · intro cryptoOk jcs ks now card
    unfold SignatureVerifier.verify
    cases hs : card.signatures.getD [] with
    | nil => simp
    | cons s rest =>
      unfold verifyWithCandidates
      simp only [hs]
      rw [verifyFoldSpec
        (verify_one_signature cryptoOk ks.keys now (_candidate_payload_b64s jcs card))
        (s :: rest) true []]
      simp [List.all_eq_true]
  · intro cryptoOk jcs v now card h0
    unfold SignatureVerifier.verify
    simp [h0]

/-- C1 witness: the single-good-signature card verifies, instantiating the
characterization at a concrete input. -/
theorem verify_all_must_pass_witness :
    (SignatureVerifier.verify testVerifier alwaysOkCrypto noJcs 0 singleGoodCard).1 = true
    ∧ SignatureVerifier.verify testVerifier alwaysOkCrypto noJcs 0 zeroSigCard = (false, []) :=
  ⟨(verify_all_must_pass.1 alwaysOkCrypto noJcs testKeySet 0 singleGoodCard).mpr (by decide),
   verify_all_must_pass.2.1 alwaysOkCrypto noJcs testVerifier 0 zeroSigCard (by decide)⟩

def badAlgSig : SigEnvelope :=
  { prot := ProtField.decoded { alg := some "none", kid := some "k1" }, signature := some "s" }

/-- C2 amended: policy rejections decided before the cryptographic stage
(disallowed algorithm, critical header present, malformed or expired or
not-yet-valid temporal claim) always mark the signature invalid and record a
reason string in its detail; but a key-usage or key-type rejection happens
inside the per-candidate verification loop, which swallows it: when the
policy checks pass, the detail never carries a reason string, even when the
failure was the resolver rejecting the key's usage or type. -/
theorem policy_rejections_recorded :
    ∀ (cryptoOk : CryptoOracle) (keys : List Jwk) (now : Int) (cands : List String)
      (sig : SigEnvelope) (h : ProtectedHeader),
      sig.prot = ProtField.decoded h →
      ((algAllowed h.alg = false ∨ critTruthy h sig.header = true ∨
          exceptErr (validate_timestamps now h) = true →
        (verify_one_signature cryptoOk keys now cands sig).valid = false ∧
        (verify_one_signature cryptoOk keys now cands sig).error ≠ none)
      ∧ (algAllowed h.alg = true → critTruthy h sig.header = false →
          validate_timestamps now h = Except.ok () →
          (verify_one_signature cryptoOk keys now cands sig).error = none)) := by
  intro cryptoOk keys now cands sig h hp
  unfold verify_one_signature
  rw [hp]
  constructor
  · intro hviol
    unfold verify_one_decoded
    rcases hviol with hv | hv | hv
    · simp [hv]
    · by_cases ha : algAllowed h.alg <;> simp [ha, hv]
    · by_cases ha : algAllowed h.alg
      · by_cases hc : critTruthy h sig.header
        · simp [ha, hc]
        · cases hts : validate_timestamps now h with
          | ok _ => rw [hts] at hv; simp [exceptErr] at hv
          | error m => simp [ha, hc, hts]
      · simp [ha]
  · intro ha hc hts
    unfold verify_one_decoded
    simp only [ha, Bool.not_true, hc, hts, if_false, Bool.false_eq_true]
    split <;> rfl

/-- C2 witness: a disallowed algorithm is recorded with a reason, and the
enc-usage key rejection leaves the detail without a reason, instantiating
both branches concretely. -/
theorem policy_rejections_recorded_witness :
    ((verify_one_signature alwaysOkCrypto testKeySet.keys 0 ["e30"] badAlgSig).valid = false ∧
     (verify_one_signature alwaysOkCrypto testKeySet.keys 0 ["e30"] badAlgSig).error ≠ none)
    ∧ (verify_one_signature alwaysOkCrypto [encUseKey] 0 ["e30"] goodSig).error = none :=
  ⟨(policy_rejections_recorded alwaysOkCrypto testKeySet.keys 0 ["e30"] badAlgSig
      { alg := some "none", kid := some "k1" } rfl).1 (Or.inl (by decide)),
   (policy_rejections_recorded alwaysOkCrypto [encUseKey] 0 ["e30"] goodSig
      goodHeader rfl).2 (by decide) (by decide) (by decide)⟩

/-- C2 counterexample: a card signed under an allow-listed algorithm whose
trusted key declares usage "enc" is marked invalid, but its per-signature
detail records no reason string at all (error = none): the claim that a
key-usage policy rejection is always recorded with a reason is false. -/
theorem policy_rejection_counterexample :
    SignatureVerifier.verify { jwks := some { keys := [encUseKey] } } alwaysOkCrypto noJcs 0 singleGoodCard
      = (false, [{ valid := false, kid := some "k1", alg := some "RS256", error := none }]) := by
  decide

/-- C3: the key used for one envelope is resolved solely by looking the
merged header kid (and declared algorithm) up in the caller-supplied trusted
key set: the embedded jku and jwk header entries never influence which key is
resolved, and any successfully resolved key is a member of the trusted set.
The resolver takes no network collaborator in its type, so an embedded
key-set URL can never be dereferenced during resolution. -/
theorem key_resolution_uses_trusted_set_only :
    (∀ (keys : List Jwk) (h : ProtectedHeader) (unprot : Option UnprotHeader) (jkuV jwkV : Option String),
      resolvedKey keys { h with jku := jkuV, jwk := jwkV } unprot = resolvedKey keys h unprot)
    ∧ (∀ (keys : List Jwk) (h : ProtectedHeader) (unprot : Option UnprotHeader) (k : Jwk),
        resolvedKey keys h unprot = Except.ok k → k ∈ keys) := by
  constructor
  · intro keys h unprot jkuV jwkV
    rfl
  · intro keys h unprot k hk
    unfold resolvedKey key_resolver at hk
    cases hfind : find_by_kid keys (mergedKid h unprot) with
    | error e => rw [hfind] at hk; cases hk
    | ok key =>
      rw [hfind] at hk
      dsimp only at hk
      have hmem : key ∈ keys := by
        unfold find_by_kid at hfind
        cases hf : keys.find? (fun kk => kk.kid == mergedKid h unprot) with
        | none => rw [hf] at hfind; cases hfind
        | some kk =>
          rw [hf] at hfind
          cases hfind
          exact List.mem_of_find?_eq_some hf
      split_ifs at hk
      injection hk with hkk
      rw [← hkk]
      exact hmem

/-- C3 witness: resolving the good header against the concrete trusted set
yields the RSA signing key, which the theorem places inside that set. -/
theorem key_resolution_witness : rsaSigKey ∈ testKeySet.keys :=
  key_resolution_uses_trusted_set_only.2 testKeySet.keys goodHeader none rsaSigKey (by decide)

/-- C4: with signature verification requested and a reachable card, a
verifier whose trusted key set is absent reports the outcome as skipped: the
signature_verified field stays unset (none, not false) and the verification
detail records the skipped status; under the strict require-verified-card
flag the same absence escalates to a fatal error for the whole call. -/
theorem missing_jwks_unavailable_strict_fatal :
    ∀ (net : String → HttpResult) (cryptoOk : CryptoOracle) (jcs : Json → Option String)
      (now : Int) (ve : Bool) (info : AgentInfo) (url : String) (card : Card),
      url ≠ "" →
      net url = HttpResult.response 200 (Except.ok card) →
      (_verify_endpoint_and_signature net false cryptoOk jcs now ve true (some { jwks := none }) info url
        = Except.ok { info with
            endpoint_accessible := some true,
            signature_verified := none,
            signature_verification := some (VerificationField.skipped "No trusted JWKS configured") })
      ∧ exceptErr (_verify_endpoint_and_signature net true cryptoOk jcs now ve true
          (some { jwks := none }) info url) = true := by
  intro net cryptoOk jcs now ve info url card hurl hnet
  constructor
  · unfold _verify_endpoint_and_signature
    simp [hurl, hnet]
  · unfold _verify_endpoint_and_signature handleVerifyExc
    simp [hurl, hnet, exceptErr]

/-- C4 witness: the concrete fixture instantiation of the skipped report and
of the strict-mode fatal error. -/
theorem missing_jwks_witness :
    (_verify_endpoint_and_signature (okNet zeroSigCard) false alwaysOkCrypto noJcs 0 false true
        (some { jwks := none }) baseInfo baseInfo.agent_card_url
      = Except.ok { baseInfo with
          endpoint_accessible := some true,
          signature_verified := none,
          signature_verification := some (VerificationField.skipped "No trusted JWKS configured") })
    ∧ exceptErr (_verify_endpoint_and_signature (okNet zeroSigCard) true alwaysOkCrypto noJcs 0 false true
        (some { jwks := none }) baseInfo baseInfo.agent_card_url) = true :=
  missing_jwks_unavailable_strict_fatal (okNet zeroSigCard) alwaysOkCrypto noJcs 0 false baseInfo
    baseInfo.agent_card_url zeroSigCard (by decide) rfl

/-- C5: in the built route index an alias-tier (identity label) entry is
never displaced by the own-resource-name fallback tier, whatever the route
order: whenever some route's label tier wrote key k, the index holds the
value of the latest such label write (the setdefault own-name tier never
overrides, while later label writes overwrite outright). -/
theorem label_alias_never_overwritten_by_own_name :
    ∀ (routes : List RouteResource) (k : String × String) (u : String),
      lastLabelWrite k routes = some u →
      dictGet (build_route_index routes) k = some u := by
  intro routes k u h
  exact lastLabelWrite_foldl k u routes [] h

/-- C5 witness: the two-route example in both processing orders — a route
labeled alpha with host a.example.com and an unlabeled route whose own name
is alpha with host b.example.com — resolves ("ns", "alpha") to the labeled
route's URL. -/
theorem label_alias_witness :
    dictGet (build_route_index [labeledRoute, unlabeledRoute]) ("ns", "alpha")
      = some "https://a.example.com"
    ∧ dictGet (build_route_index [unlabeledRoute, labeledRoute]) ("ns", "alpha")
      = some "https://a.example.com" :=
  ⟨label_alias_never_overwritten_by_own_name [labeledRoute, unlabeledRoute]
      ("ns", "alpha") "https://a.example.com" (by decide),
   label_alias_never_overwritten_by_own_name [unlabeledRoute, labeledRoute]
      ("ns", "alpha") "https://a.example.com" (by decide)⟩

/-- C6 amended: every URL stored in the built route index carries the https
scheme joined with a host, regardless of the route's TLS stanza; the
TLS-conditional scheme (https exactly when a TLS stanza is declared, else
http) holds for _build_url_from_route, which source-reference resolution
uses, but not for the index builder. -/
theorem route_index_scheme :
    (∀ (routes : List RouteResource) (k : String × String) (u : String),
      dictGet (build_route_index routes) k = some u → ∃ host, u = "https://" ++ host)
    ∧ (∀ (spec : RouteSpec) (host : String), truthyStr spec.host = some host →
        _build_url_from_route spec
          = some ((if spec.tls then "https" else "http") ++ "://" ++ host)) := by
  constructor
  · intro routes k u h
    refine dictGet_https k u (build_route_index routes) ?_ h
    exact build_route_index_https routes [] (fun e he => absurd he (List.not_mem_nil e))
  · intro spec host hhost
    unfold _build_url_from_route
    rw [hhost]

/-- C6 witness: instantiating both conjuncts at the TLS-less fixture route. -/
theorem route_index_scheme_witness :
    (∃ host, "https://h.example.com" = "https://" ++ host)
    ∧ _build_url_from_route noTlsRoute.spec
        = some ((if noTlsRoute.spec.tls then "https" else "http") ++ "://" ++ "h.example.com") :=
  ⟨route_index_scheme.1 [noTlsRoute] ("ns", "r") "https://h.example.com" (by decide),
   route_index_scheme.2 noTlsRoute.spec "h.example.com" (by decide)⟩

/-- C6 counterexample: a route without a TLS stanza is indexed under the
https scheme, not the http scheme the claim requires for TLS-less routes. -/
theorem route_index_scheme_counterexample :
    dictGet (build_route_index [noTlsRoute]) ("ns", "r") = some "https://h.example.com"
    ∧ dictGet (build_route_index [noTlsRoute]) ("ns", "r") ≠ some "http://h.example.com" := by
  constructor
  · decide
  · decide

/-- C7: the endpoint fallback chain, first success wins: a record carrying a
truthy direct status URL resolves to it unchanged for every oracle and every
index (no per-agent query can influence it); otherwise a truthy
source-reference resolution wins; otherwise the route index is consulted by
the declared agent name and then by the resource's own name, and an empty
URL remains when every tier fails; and a Service-kind source-reference whose
route listing raises is swallowed into a try-next-tier none. -/
theorem endpoint_resolution_fallback_chain :
    (∀ (o : ClusterOracle) (idx : RouteIndex) (cr : AgentCR) (u : String),
      cr.status_url = some u → u ≠ "" → resolveAgentUrl o idx cr = u)
    ∧ (∀ (o : ClusterOracle) (idx : RouteIndex) (cr : AgentCR) (u : String),
      cr.status_url.getD "" = "" →
      resolve_url_from_source_ref o (cr.metadata_namespace.getD "") (cr.spec_sourceRef.getD {}) = some u →
      u ≠ "" →
      resolveAgentUrl o idx cr = u)
    ∧ (∀ (o : ClusterOracle) (idx : RouteIndex) (cr : AgentCR),
      cr.status_url.getD "" = "" →
      truthyStr (resolve_url_from_source_ref o (cr.metadata_namespace.getD "")
        (cr.spec_sourceRef.getD {})) = none →
      resolveAgentUrl o idx cr =
        (match truthyStr (dictGet idx (cr.metadata_namespace.getD "", cr.spec_name.getD "unknown")) with
         | some u => u
         | none =>
           (truthyStr (dictGet idx (cr.metadata_namespace.getD "", cr.metadata_name.getD ""))).getD ""))
    ∧ (∀ (o : ClusterOracle) (ns : String) (ref : SourceRef) (e : String),
      pyStrip (ref.kind.getD "") = "Service" →
      pyStrip (ref.name.getD "") ≠ "" →
      o.get_routes ("-n " ++ ns) "" = Except.error e →
      resolve_url_from_source_ref o ns ref = none) := by
  refine ⟨?_, ?_, ?_, ?_⟩
  · intro o idx cr u hu hne
    unfold resolveAgentUrl
    simp [hu, hne]
  · intro o idx cr u hurl hsrc hne
    unfold resolveAgentUrl
    simp [hurl, hsrc, truthyStr, hne]
  · intro o idx cr hurl htr
    unfold resolveAgentUrl
    simp only [hurl, ne_eq, not_true_eq_false, if_false, htr]
    cases h1 : truthyStr (dictGet idx (cr.metadata_namespace.getD "", cr.spec_name.getD "unknown")) with
    | some u => simp
    | none =>
      cases h2 : truthyStr (dictGet idx (cr.metadata_namespace.getD "", cr.metadata_name.getD "")) with
      | some u => simp
      | none => simp
  · intro o ns ref e hkind hname hroutes
    unfold resolve_url_from_source_ref
    simp [hkind, hname, hroutes]

/-- C7 witness: a record with a direct status URL resolves to it against the
empty oracle and empty index; the same record resolves identically against a
failing oracle, showing oracle-independence concretely. -/
theorem endpoint_resolution_witness :
    resolveAgentUrl emptyOracle [] directUrlCR = "http://a1.example.com"
    ∧ resolveAgentUrl
        { get_route := fun _ _ => none, get_routes := fun _ _ => Except.error "down" }
        [(("ns", "a1"), "https://other.example.com")] directUrlCR
      = "http://a1.example.com" :=
  ⟨endpoint_resolution_fallback_chain.1 emptyOracle [] directUrlCR "http://a1.example.com"
      rfl (by decide),
   endpoint_resolution_fallback_chain.1
      { get_route := fun _ _ => none, get_routes := fun _ _ => Except.error "down" }
      [(("ns", "a1"), "https://other.example.com")] directUrlCR "http://a1.example.com"
      rfl (by decide)⟩

/-- C8 amended: with the strict require-verified-card mode disabled,
discovery returns exactly one result per input record — the result list is
the map of the per-record pipeline over the inputs, so one record's network
or verification failure is recorded in that record's own result and cannot
disturb or drop the others; with strict mode enabled a single record's
failure aborts the whole pass (see the counterexample). -/
theorem discovery_one_result_per_agent_nonstrict :
    ∀ (oracle : ClusterOracle) (net : String → HttpResult) (cryptoOk : CryptoOracle)
      (jcs : Json → Option String) (now : Int) (namespace_flag : String)
      (ve vs : Bool) (env_jwks : Option Jwks) (agent_crs : List AgentCR),
      _discover_agents_impl oracle net false cryptoOk jcs now namespace_flag ve vs env_jwks agent_crs
      = Except.ok (agent_crs.map (fun cr =>
          verifyNonStrictResult net cryptoOk jcs now ve vs
            (if vs then some { jwks := env_jwks } else none)
            (processAgentCR oracle (routeIndexOf oracle namespace_flag) cr)
            (processAgentCR oracle (routeIndexOf oracle namespace_flag) cr).agent_card_url)) := by
  intro oracle net cryptoOk jcs now nsflag ve vs env_jwks crs
  cases crs with
  | nil => rfl
  | cons cr rest =>
    exact discoverLoop_nonstrict net cryptoOk jcs now ve vs
      (if vs then some { jwks := env_jwks } else none) oracle
      (routeIndexOf oracle nsflag) (cr :: rest)

/-- C8 counterexample: with strict mode enabled, the first record's network
failure aborts the whole discovery pass with a raised error, so the pass
does not return one result per input record and the second record is never
reported. -/
theorem discovery_strict_abort_counterexample :
    _discover_agents_impl emptyOracle failNet true alwaysOkCrypto noJcs 0 "-n ns"
      false true (some testKeySet) [directUrlCR, directUrlCR2]
    = Except.error "Failed to verify agent a1: boom" := by
  decide

/-- C9: the candidate payload list is computed from the card with its
signature envelopes removed — the envelope list never influences the
candidates, and rebuilding from the already-stripped card yields the same
ordered list (the builder is a pure function, so repeated calls agree) —;
the list never contains a duplicate encoding; the deterministic fallback
encoding is always among the candidates; and when the JCS scheme fails the
fallback encoding is still produced, alone. -/
theorem candidate_payloads_properties :
    (∀ (jcs : Json → Option String) (content : Json) (s1 s2 : Option (List SigEnvelope)),
      _candidate_payload_b64s jcs { content := content, signatures := s1 }
        = _candidate_payload_b64s jcs { content := content, signatures := s2 })
    ∧ (∀ (jcs : Json → Option String) (card : Card),
        _candidate_payload_b64s jcs (popSignatures card) = _candidate_payload_b64s jcs card)
    ∧ (∀ (jcs : Json → Option String) (card : Card), (_candidate_payload_b64s jcs card).Nodup)
    ∧ (∀ (jcs : Json → Option String) (card : Card),
        _base64url_encode (serializeJson card.content) ∈ _candidate_payload_b64s jcs card)
    ∧ (∀ (jcs : Json → Option String) (card : Card), jcs card.content = none →
        _candidate_payload_b64s jcs card = [_base64url_encode (serializeJson card.content)]) := by
  refine ⟨fun _ _ _ _ => rfl, fun _ _ => rfl, ?_, ?_, ?_⟩
  · intro jcs card
    unfold _candidate_payload_b64s buildCandidates
    rw [show (popSignatures card).content = card.content from rfl]
    cases hj : jcs card.content with
    | none => simp
    | some j =>
      by_cases hb : _base64url_encode (serializeJson card.content) = _base64url_encode j
      · rw [if_pos (by simp [hb])]
        exact List.nodup_singleton _
      · rw [if_neg (by simp [hb])]
        refine List.nodup_cons.mpr ⟨?_, List.nodup_singleton _⟩
        exact fun h => hb (List.mem_singleton.mp h).symm
  · intro jcs card
    unfold _candidate_payload_b64s buildCandidates
    rw [show (popSignatures card).content = card.content from rfl]
    cases hj : jcs card.content with
    | none => simp
    | some j =>
      by_cases hb : _base64url_encode (serializeJson card.content) = _base64url_encode j
      · rw [if_pos (by simp [hb])]
        simp [hb]
      · rw [if_neg (by simp [hb])]
        simp
  · intro jcs card hj
    unfold _candidate_payload_b64s buildCandidates
    rw [show (popSignatures card).content = card.content from rfl, hj]
    simp

/-- C10: verify and the canonical payload builder leave the caller's card
object unchanged: run as state transformers over the caller's card they
return the pure result alongside the original card — signatures included —
because the signature stripping is performed on a deep copy of the card, not
on the caller's object. -/
theorem verify_leaves_card_unchanged :
    (∀ (v : SignatureVerifier) (cryptoOk : CryptoOracle) (jcs : Json → Option String)
      (now : Int) (card : Card),
      (SignatureVerifier.verifyM v cryptoOk jcs now).run card
        = (SignatureVerifier.verify v cryptoOk jcs now card, card))
    ∧ (∀ (jcs : Json → Option String) (card : Card),
      (_candidate_payload_b64sM jcs).run card = (_candidate_payload_b64s jcs card, card)) := by
  constructor
  · intro v cryptoOk jcs now card
    cases card with
    | mk content sigs =>
      cases sigs with
      | none => rfl
      | some l =>
        cases l with
        | nil => rfl
        | cons a as => rfl
  · intro jcs card
    rfl

/-- C9 witness: at a concrete card whose JCS scheme fails, the candidate
list is exactly the fallback encoding, instantiating the conditional
conjunct of the candidate-payload theorem. -/
theorem candidate_payloads_witness :
    noJcs mixedCard.content = none
    ∧ _candidate_payload_b64s noJcs mixedCard
        = [_base64url_encode (serializeJson mixedCard.content)] :=
  ⟨rfl, candidate_payloads_properties.2.2.2.2 noJcs mixedCard rfl⟩
